import Mathlib

/-!
Shallow embedding of `src/main.py` (FastAPI task manager with Pomodoro timer).

The database is modelled as explicit state: a list of task rows and a list of
session rows, in insertion order (SQLite rowid order).  SQLAlchemy queries
`query(T).filter(cond).first()` become `List.find?`, `.all()` with a filter
becomes `List.filter`, `db.add` appends, `db.delete` removes the row found
(first occurrence), and in-place mutation of a fetched ORM object becomes
replacement of the first matching row.  Timestamps are rational numbers of
seconds; `total_seconds() / 60` becomes exact rational division by 60.
String comparison in SQL `=` filters is exact (SQLite default BINARY
collation), so title checks are case-sensitive.
-/

/-- The `TaskStatus` enum from `main.py` (values are Polish strings). -/
inductive TaskStatus where
  | TO_DO
  | IN_PROGRESS
  | FINISHED
deriving DecidableEq, Repr

/-- A row of the `tasks` table (`TaskDB`). -/
structure TaskDB where
  id : String
  title : String
  description : Option String
  status : TaskStatus
  pomodoro_active : Bool
deriving DecidableEq, Repr

/-- A row of the `pomodoro_sessions` table (`PomodoroSessionDB`).
Timestamps are seconds as exact rationals. -/
structure PomodoroSessionDB where
  id : String
  task_id : String
  start_time : ℚ
  end_time : ℚ
  completed : Bool
deriving DecidableEq, Repr

/-- The whole database state: both tables, rows in insertion order. -/
structure DBState where
  tasks : List TaskDB
  sessions : List PomodoroSessionDB
deriving DecidableEq, Repr

/-- The HTTP error outcomes the handlers produce: 404, 400, and the
framework-level 422 validation rejection. -/
inductive ApiError where
  | NotFound
  | Conflict
  | Validation
deriving DecidableEq, Repr

/-- Outcome of a handler: a value or an HTTP error. -/
inductive Result (α : Type) where
  | ok (a : α)
  | err (e : ApiError)
deriving DecidableEq, Repr

/-- The validated request body `TaskCreate` (after Pydantic validation).
`status` defaults to `TO_DO` when omitted. -/
structure TaskCreate where
  title : String
  description : Option String := none
  status : TaskStatus := TaskStatus.TO_DO
deriving DecidableEq, Repr

/-- A raw request body before Pydantic validation: `title` is required,
`description` and `status` may be absent; `status` arrives as a string. -/
structure RawTaskCreate where
  title : String
  description : Option String
  status : Option String
deriving DecidableEq, Repr

/-- Parsing of the `status` field: absent defaults to `TO_DO`; otherwise it
must be one of the three enum values of `TaskStatus`. -/
def parseStatus : Option String → Option TaskStatus
  | none => some TaskStatus.TO_DO
  | some s =>
    if s = "do wykonania" then some TaskStatus.TO_DO
    else if s = "w trakcie" then some TaskStatus.IN_PROGRESS
    else if s = "zakończone" then some TaskStatus.FINISHED
    else none

/-- Pydantic validation of `TaskCreate`: `title` length 3..100,
`description` length at most 300 when present, `status` a valid enum value
(defaulting to `TO_DO`). Returns `none` on a 422 validation failure. -/
def validateTaskCreate (raw : RawTaskCreate) : Option TaskCreate :=
  if 3 ≤ raw.title.length ∧ raw.title.length ≤ 100 then
    if (match raw.description with
        | none => true
        | some d => d.length ≤ 300) then
      match parseStatus raw.status with
      | some st => some ⟨raw.title, raw.description, st⟩
      | none => none
    else none
  else none

/-- Replace the first row whose id equals `tid` by applying `f` to it
(mutating the ORM object returned by `.first()` and committing). -/
def updateFirstById (l : List TaskDB) (tid : String) (f : TaskDB → TaskDB) :
    List TaskDB :=
  match l with
  | [] => []
  | t :: ts => if t.id == tid then f t :: ts else t :: updateFirstById ts tid f

/-- `POST /tasks` (`create_task`): reject with 400 if a task with SQL-equal
title exists; otherwise insert a new row with a fresh id (uuid4, passed in as
`newId`) and `pomodoro_active` left at its column default `false`. -/
def create_task (task_in : TaskCreate) (newId : String) (db : DBState) :
    Result TaskDB × DBState :=
  match db.tasks.find? (fun t => t.title == task_in.title) with
  | some _ => (Result.err ApiError.Conflict, db)
  | none =>
    let newTask : TaskDB :=
      ⟨newId, task_in.title, task_in.description, task_in.status, false⟩
    (Result.ok newTask, ⟨db.tasks ++ [newTask], db.sessions⟩)

/-- `GET /tasks` (`get_tasks`): all tasks, or those with the given status. -/
def get_tasks (status : Option TaskStatus) (db : DBState) : List TaskDB :=
  match status with
  | some s => db.tasks.filter (fun t => t.status == s)
  | none => db.tasks

/-- `GET /tasks/{task_id}` (`get_task`): 404 when no row has the id. -/
def get_task (task_id : String) (db : DBState) : Result TaskDB × DBState :=
  match db.tasks.find? (fun t => t.id == task_id) with
  | some t => (Result.ok t, db)
  | none => (Result.err ApiError.NotFound, db)

/-- `PUT /tasks/{task_id}` (`update_task`): 404 when the id is absent, 400
when a different row has SQL-equal title, otherwise overwrite title,
description and status of the fetched row in place. -/
def update_task (task_id : String) (task_update : TaskCreate) (db : DBState) :
    Result TaskDB × DBState :=
  match db.tasks.find? (fun t => t.id == task_id) with
  | none => (Result.err ApiError.NotFound, db)
  | some existing =>
    match db.tasks.find?
        (fun t => t.title == task_update.title && !(t.id == task_id)) with
    | some _ => (Result.err ApiError.Conflict, db)
    | none =>
      let updated : TaskDB :=
        { existing with
            title := task_update.title
            description := task_update.description
            status := task_update.status }
      (Result.ok updated,
       ⟨updateFirstById db.tasks task_id (fun t =>
          { t with
              title := task_update.title
              description := task_update.description
              status := task_update.status }),
        db.sessions⟩)

/-- `DELETE /tasks/{task_id}` (`delete_task`): 404 when absent, otherwise
delete the fetched row and return a confirmation message. -/
def delete_task (task_id : String) (db : DBState) : Result String × DBState :=
  match db.tasks.find? (fun t => t.id == task_id) with
  | none => (Result.err ApiError.NotFound, db)
  | some _ =>
    (Result.ok ("Task with ID " ++ task_id ++ " has been deleted"),
     ⟨db.tasks.eraseP (fun t => t.id == task_id), db.sessions⟩)

/-- `POST /pomodoro` (`create_pomodoro_timer`): 404 when the task is absent,
400 when `pomodoro_active` is already true, otherwise set it true. -/
def create_pomodoro_timer (task_id : String) (db : DBState) :
    Result String × DBState :=
  match db.tasks.find? (fun t => t.id == task_id) with
  | none => (Result.err ApiError.NotFound, db)
  | some task =>
    if task.pomodoro_active then (Result.err ApiError.Conflict, db)
    else
      (Result.ok ("25-minute Pomodoro timer created for task with ID "
          ++ task_id),
       ⟨updateFirstById db.tasks task_id
          (fun t => { t with pomodoro_active := true }),
        db.sessions⟩)

/-- `POST /pomodoro/{task_id}/stop` (`stop_pomodoro_timer`): 404 when the
task is absent, 400 when `pomodoro_active` is already false, otherwise set
it false. -/
def stop_pomodoro_timer (task_id : String) (db : DBState) :
    Result String × DBState :=
  match db.tasks.find? (fun t => t.id == task_id) with
  | none => (Result.err ApiError.NotFound, db)
  | some task =>
    if task.pomodoro_active then
      (Result.ok ("Pomodoro timer for task with ID " ++ task_id
          ++ " has been stopped"),
       ⟨updateFirstById db.tasks task_id
          (fun t => { t with pomodoro_active := false }),
        db.sessions⟩)
    else (Result.err ApiError.Conflict, db)

/-- Per-task accumulator entry of the stats endpoint. -/
structure TaskStat where
  completed_sessions : Nat
  total_time : ℚ
deriving DecidableEq, Repr

/-- Elapsed time of a session in minutes: `(end_time - start_time)` seconds
divided by 60, exact (no rounding). -/
def sessMinutes (s : PomodoroSessionDB) : ℚ :=
  (s.end_time - s.start_time) / 60

/-- One loop iteration of `get_pomodoro_stats`: insert `{0, 0}` for an unseen
task id (Python dicts keep insertion order, so a new key goes to the end),
then add this session's count and minutes. -/
def addSession (stats : List (String × TaskStat)) (tid : String) (time : ℚ) :
    List (String × TaskStat) :=
  match stats with
  | [] => [(tid, ⟨1, time⟩)]
  | (k, v) :: rest =>
    if k == tid then
      (k, ⟨v.completed_sessions + 1, v.total_time + time⟩) :: rest
    else (k, v) :: addSession rest tid time

/-- The loop body of `get_pomodoro_stats`: update the per-task dict and add
this session's minutes to the running grand total. -/
def statsStep (acc : List (String × TaskStat) × ℚ) (s : PomodoroSessionDB) :
    List (String × TaskStat) × ℚ :=
  (addSession acc.1 s.task_id (sessMinutes s), acc.2 + sessMinutes s)

/-- `GET /pomodoro/stats` (`get_pomodoro_stats`): iterate the sessions with
`completed == true`, accumulating per-task session counts and minute sums
and a grand total of minutes. -/
def get_pomodoro_stats (db : DBState) : List (String × TaskStat) × ℚ :=
  (db.sessions.filter (fun s => s.completed)).foldl statsStep ([], 0)

/-- A JSON-like value, enough to describe the stats response body. -/
inductive JValue where
  | jnum (q : ℚ)
  | jnat (n : Nat)
  | jobj (fields : List (String × JValue))

/-- The JSON object `get_pomodoro_stats` returns:
`{"task_stats": {task_id: {"completed_sessions": …, "total_time": …}},
"total_time": …}`. -/
def statsToJson (db : DBState) : JValue :=
  let r := get_pomodoro_stats db
  JValue.jobj
    [("task_stats", JValue.jobj (r.1.map (fun p =>
        (p.1, JValue.jobj
          [("completed_sessions", JValue.jnat p.2.completed_sessions),
           ("total_time", JValue.jnum p.2.total_time)])))),
     ("total_time", JValue.jnum r.2)]

/-- The field names of a JSON object (empty for non-objects). -/
def JValue.topKeys : JValue → List String
  | JValue.jobj fields => fields.map Prod.fst
  | _ => []

/-- `GET /pomodoro/sessions` (`get_pomodoro_sessions`): all session rows. -/
def get_pomodoro_sessions (db : DBState) : List PomodoroSessionDB :=
  db.sessions

/-- The full `POST /tasks` endpoint: Pydantic validation (422 before any
business logic) followed by `create_task`. -/
def post_tasks (raw : RawTaskCreate) (newId : String) (db : DBState) :
    Result TaskDB × DBState :=
  match validateTaskCreate raw with
  | none => (Result.err ApiError.Validation, db)
  | some tc => create_task tc newId db

/-- The full `PUT /tasks/{task_id}` endpoint: Pydantic validation (422
before any business logic) followed by `update_task`. -/
def put_tasks (task_id : String) (raw : RawTaskCreate) (db : DBState) :
    Result TaskDB × DBState :=
  match validateTaskCreate raw with
  | none => (Result.err ApiError.Validation, db)
  | some tc => update_task task_id tc db

/-! ## Helper lemmas -/

/-- The ids of the task rows, in order. -/
def taskIds (l : List TaskDB) : List String :=
  l.map TaskDB.id

theorem find?_some_of_exists {p : TaskDB → Bool} {l : List TaskDB}
    (h : ∃ t ∈ l, p t) : ∃ u, l.find? p = some u ∧ p u := by
  obtain ⟨t, ht, hp⟩ := h
  have : (l.find? p).isSome := List.find?_isSome.mpr ⟨t, ht, hp⟩
  obtain ⟨u, hu⟩ := Option.isSome_iff_exists.mp this
  exact ⟨u, hu, List.find?_some hu⟩

theorem find?_id_eq_none {l : List TaskDB} {tid : String}
    (h : ∀ t ∈ l, t.id ≠ tid) :
    l.find? (fun t => t.id == tid) = none := by
  apply List.find?_eq_none.mpr
  intro t ht
  simpa using h t ht

/-- With pairwise-distinct ids (the primary-key invariant), `find?` by id
returns exactly the member with that id. -/
theorem find?_id_nodup {l : List TaskDB} {t : TaskDB} {tid : String}
    (hnd : (taskIds l).Nodup) (ht : t ∈ l) (hid : t.id = tid) :
    l.find? (fun s => s.id == tid) = some t := by
  induction l with
  | nil => cases ht
  | cons h tl ih =>
    rw [taskIds, List.map_cons, List.nodup_cons] at hnd
    rcases List.mem_cons.mp ht with rfl | htl
    · simp [hid]
    · have hne : h.id ≠ tid := by
        intro he
        exact hnd.1 (he ▸ hid ▸ List.mem_map_of_mem TaskDB.id htl)
      rw [List.find?_cons_of_neg _ (by simpa using hne)]
      exact ih hnd.2 htl

theorem updateFirstById_map {l : List TaskDB} {tid : String}
    {f : TaskDB → TaskDB} {β : Type} (g : TaskDB → β)
    (hg : ∀ t, g (f t) = g t) :
    (updateFirstById l tid f).map g = l.map g := by
  induction l with
  | nil => rfl
  | cons h tl ih =>
    by_cases hc : h.id == tid
    · simp [updateFirstById, hc, hg]
    · simp [updateFirstById, hc, ih]

theorem updateFirstById_taskIds {l : List TaskDB} {tid : String}
    {f : TaskDB → TaskDB} (hf : ∀ t, (f t).id = t.id) :
    taskIds (updateFirstById l tid f) = taskIds l :=
  updateFirstById_map TaskDB.id hf

theorem find?_id_updateFirstById {l : List TaskDB} {t : TaskDB} {tid : String}
    {f : TaskDB → TaskDB} (hnd : (taskIds l).Nodup) (ht : t ∈ l)
    (hid : t.id = tid) (hf : ∀ s, (f s).id = s.id) :
    (updateFirstById l tid f).find? (fun s => s.id == tid) = some (f t) := by
  induction l with
  | nil => cases ht
  | cons h tl ih =>
    rw [taskIds, List.map_cons, List.nodup_cons] at hnd
    rcases List.mem_cons.mp ht with rfl | htl
    · simp [updateFirstById, hid, List.find?_cons_of_pos, hf]
    · have hne : h.id ≠ tid := by
        intro he
        exact hnd.1 (he ▸ hid ▸ List.mem_map_of_mem TaskDB.id htl)
      rw [updateFirstById, if_neg (by simpa using hne),
        List.find?_cons_of_neg _ (by simpa using hne)]
      exact ih hnd.2 htl

theorem mem_of_find?_id {l : List TaskDB} {t : TaskDB} {tid : String}
    (h : l.find? (fun s => s.id == tid) = some t) : t ∈ l ∧ t.id = tid :=
  ⟨List.mem_of_find?_eq_some h, by simpa using List.find?_some h⟩

theorem find?_id_eraseP {l : List TaskDB} {tid : String}
    (hnd : (taskIds l).Nodup) :
    (l.eraseP (fun s => s.id == tid)).find? (fun s => s.id == tid) = none := by
  induction l with
  | nil => rfl
  | cons h tl ih =>
    rw [taskIds, List.map_cons, List.nodup_cons] at hnd
    by_cases hc : h.id = tid
    · rw [List.eraseP_cons_of_pos (by simpa using hc)]
      apply List.find?_eq_none.mpr
      intro s hs hps
      have hsid : s.id = tid := by simpa using hps
      exact hnd.1 (hc ▸ hsid ▸ List.mem_map_of_mem TaskDB.id hs)
    · rw [List.eraseP_cons_of_neg (by simpa using hc),
        List.find?_cons_of_neg _ (by simpa using hc)]
      exact ih hnd.2

theorem mem_eraseP_of_ne {l : List TaskDB} {t : TaskDB} {tid : String}
    (ht : t ∈ l) (hne : t.id ≠ tid) :
    t ∈ l.eraseP (fun s => s.id == tid) := by
  induction l with
  | nil => cases ht
  | cons h tl ih =>
    by_cases hc : h.id = tid
    · rw [List.eraseP_cons_of_pos (by simpa using hc)]
      rcases List.mem_cons.mp ht with rfl | htl
      · exact absurd hc hne
      · exact htl
    · rw [List.eraseP_cons_of_neg (by simpa using hc)]
      rcases List.mem_cons.mp ht with rfl | htl
      · exact List.mem_cons_self _ _
      · exact List.mem_cons_of_mem _ (ih htl)

/-! ## Claim theorems -/

/-- C1 counterexample: with a stored task titled "Abc", creating a task
titled "abc" (same letters, different case) does NOT fail with Conflict as
the claim states: it succeeds and a second task is added. -/
theorem c1_counterexample :
    create_task { title := "abc" } "id2"
        ⟨[⟨"id1", "Abc", none, TaskStatus.TO_DO, false⟩], []⟩ =
      (Result.ok ⟨"id2", "abc", none, TaskStatus.TO_DO, false⟩,
       ⟨[⟨"id1", "Abc", none, TaskStatus.TO_DO, false⟩,
         ⟨"id2", "abc", none, TaskStatus.TO_DO, false⟩], []⟩) := by
  decide

/-- C1 (amended): creating a task whose title EXACTLY equals an existing
task's title fails with Conflict and no task is added; otherwise create
assigns the fresh identifier, appends the stored task (with
`pomodoro_active = false`) and returns the stored record. The comparison is
case-sensitive (exact SQL string equality), not case-insensitive. -/
theorem create_task_exact_title (tc : TaskCreate) (newId : String)
    (db : DBState) :
    ((∃ t ∈ db.tasks, t.title = tc.title) →
      create_task tc newId db = (Result.err ApiError.Conflict, db)) ∧
    ((∀ t ∈ db.tasks, t.title ≠ tc.title) →
      create_task tc newId db =
        (Result.ok ⟨newId, tc.title, tc.description, tc.status, false⟩,
         ⟨db.tasks ++ [⟨newId, tc.title, tc.description, tc.status, false⟩],
          db.sessions⟩)) := by
  constructor
  · intro h
    obtain ⟨t, ht, he⟩ := h
    obtain ⟨u, hu, _⟩ :=
      find?_some_of_exists (p := fun t => t.title == tc.title)
        ⟨t, ht, by simpa using he⟩
    simp [create_task, hu]
  · intro h
    have hf : db.tasks.find? (fun t => t.title == tc.title) = none :=
      List.find?_eq_none.mpr (fun t ht => by simpa using h t ht)
    simp [create_task, hf]

/-- C1 witness: both branches of `create_task_exact_title` at concrete
inputs. -/
theorem create_task_exact_title_witness :
    create_task { title := "abc" } "id1" ⟨[], []⟩ =
      (Result.ok ⟨"id1", "abc", none, TaskStatus.TO_DO, false⟩,
       ⟨[⟨"id1", "abc", none, TaskStatus.TO_DO, false⟩], []⟩) ∧
    create_task { title := "abc" } "id2"
        ⟨[⟨"id1", "abc", none, TaskStatus.TO_DO, false⟩], []⟩ =
      (Result.err ApiError.Conflict,
       ⟨[⟨"id1", "abc", none, TaskStatus.TO_DO, false⟩], []⟩) :=
  ⟨(create_task_exact_title { title := "abc" } "id1" ⟨[], []⟩).2 (by decide),
   (create_task_exact_title { title := "abc" } "id2"
      ⟨[⟨"id1", "abc", none, TaskStatus.TO_DO, false⟩], []⟩).1 (by decide)⟩

/-- C5: `list(status=X)` returns exactly the stored tasks whose status is X
(and nothing else, in storage order), and `list()` with no status returns
all tasks. -/
theorem get_tasks_status_filter (db : DBState) :
    (∀ s : TaskStatus, ∀ t : TaskDB,
        t ∈ get_tasks (some s) db ↔ t ∈ db.tasks ∧ t.status = s) ∧
    (∀ s : TaskStatus, List.Sublist (get_tasks (some s) db) db.tasks) ∧
    get_tasks none db = db.tasks := by
  refine ⟨?_, ?_, rfl⟩
  · intro s t
    simp [get_tasks, List.mem_filter]
  · intro s
    exact List.filter_sublist _

/-- C10: every error outcome (404, 400 or 422) of any handler leaves the
database state exactly as it was. -/
theorem error_leaves_state_unchanged (db : DBState) :
    (∀ tc newId e, (create_task tc newId db).1 = Result.err e →
        (create_task tc newId db).2 = db) ∧
    (∀ tid e, (get_task tid db).1 = Result.err e →
        (get_task tid db).2 = db) ∧
    (∀ tid tu e, (update_task tid tu db).1 = Result.err e →
        (update_task tid tu db).2 = db) ∧
    (∀ tid e, (delete_task tid db).1 = Result.err e →
        (delete_task tid db).2 = db) ∧
    (∀ tid e, (create_pomodoro_timer tid db).1 = Result.err e →
        (create_pomodoro_timer tid db).2 = db) ∧
    (∀ tid e, (stop_pomodoro_timer tid db).1 = Result.err e →
        (stop_pomodoro_timer tid db).2 = db) ∧
    (∀ raw newId e, (post_tasks raw newId db).1 = Result.err e →
        (post_tasks raw newId db).2 = db) ∧
    (∀ tid raw e, (put_tasks tid raw db).1 = Result.err e →
        (put_tasks tid raw db).2 = db) := by
  have hcreate : ∀ tc newId e, (create_task tc newId db).1 = Result.err e →
      (create_task tc newId db).2 = db := by
    intro tc newId e h
    cases hf : db.tasks.find? (fun t => t.title == tc.title) with
    | some t => simp [create_task, hf]
    | none => simp [create_task, hf] at h
  have hupdate : ∀ tid tu e, (update_task tid tu db).1 = Result.err e →
      (update_task tid tu db).2 = db := by
    intro tid tu e h
    cases hf : db.tasks.find? (fun t => t.id == tid) with
    | none => simp [update_task, hf]
    | some ex =>
      cases hg : db.tasks.find?
          (fun t => t.title == tu.title && !(t.id == tid)) with
      | some o => simp [update_task, hf, hg]
      | none => simp [update_task, hf, hg] at h
  refine ⟨hcreate, ?_, hupdate, ?_, ?_, ?_, ?_, ?_⟩
  · intro tid e h
    cases hf : db.tasks.find? (fun t => t.id == tid) with
    | some t => simp [get_task, hf]
    | none => simp [get_task, hf]
  · intro tid e h
    cases hf : db.tasks.find? (fun t => t.id == tid) with
    | none => simp [delete_task, hf]
    | some t => simp [delete_task, hf] at h
  · intro tid e h
    cases hf : db.tasks.find? (fun t => t.id == tid) with
    | none => simp [create_pomodoro_timer, hf]
    | some t =>
      by_cases ha : t.pomodoro_active
      · simp [create_pomodoro_timer, hf, ha]
      · simp [create_pomodoro_timer, hf, ha] at h
  · intro tid e h
    cases hf : db.tasks.find? (fun t => t.id == tid) with
    | none => simp [stop_pomodoro_timer, hf]
    | some t =>
      by_cases ha : t.pomodoro_active
      · simp [stop_pomodoro_timer, hf, ha] at h
      · simp [stop_pomodoro_timer, hf, ha]
  · intro raw newId e h
    cases hv : validateTaskCreate raw with
    | none => simp [post_tasks, hv]
    | some tc =>
      simp only [post_tasks, hv] at h ⊢
      exact hcreate tc newId e h
  · intro tid raw e h
    cases hv : validateTaskCreate raw with
    | none => simp [put_tasks, hv]
    | some tc =>
      simp only [put_tasks, hv] at h ⊢
      exact hupdate tid tc e h

/-- C10 witness: a 404 from `get_task` on an empty store leaves the state
unchanged. -/
theorem error_leaves_state_unchanged_witness :
    (get_task "x" ⟨[], []⟩).2 = (⟨[], []⟩ : DBState) :=
  (error_leaves_state_unchanged ⟨[], []⟩).2.1 "x" ApiError.NotFound (by decide)

/-- C3 counterexample: task "id1" is titled "Abc"; updating task "id2" to
title "abc" (differing from "Abc" only by case) does NOT fail with Conflict
as the claim states: it succeeds. -/
theorem c3_counterexample :
    update_task "id2" { title := "abc" }
        ⟨[⟨"id1", "Abc", none, TaskStatus.TO_DO, false⟩,
          ⟨"id2", "xyz", none, TaskStatus.TO_DO, false⟩], []⟩ =
      (Result.ok ⟨"id2", "abc", none, TaskStatus.TO_DO, false⟩,
       ⟨[⟨"id1", "Abc", none, TaskStatus.TO_DO, false⟩,
         ⟨"id2", "abc", none, TaskStatus.TO_DO, false⟩], []⟩) := by
  decide

/-- C3 (amended): update fails with NotFound when the id is absent; fails
with Conflict when a DIFFERENT task already has EXACTLY that title
(case-sensitive SQL equality, not case-insensitive); updating a task to its
own unchanged title succeeds; on success it overwrites title, description
and status of the stored row in place (full replace) and returns the
updated record. -/
theorem update_task_exact_title (tid : String) (tu : TaskCreate)
    (db : DBState) :
    ((∀ t ∈ db.tasks, t.id ≠ tid) →
        update_task tid tu db = (Result.err ApiError.NotFound, db)) ∧
    ((∃ t ∈ db.tasks, t.id = tid) →
     (∃ t ∈ db.tasks, t.title = tu.title ∧ t.id ≠ tid) →
        update_task tid tu db = (Result.err ApiError.Conflict, db)) ∧
    ((∃ t ∈ db.tasks, t.id = tid) →
     (∀ t ∈ db.tasks, t.title = tu.title → t.id = tid) →
        ∃ u, (update_task tid tu db).1 = Result.ok u ∧
          u.id = tid ∧ u.title = tu.title ∧ u.description = tu.description ∧
          u.status = tu.status ∧
          (update_task tid tu db).2 =
            ⟨updateFirstById db.tasks tid (fun t =>
               { t with
                   title := tu.title
                   description := tu.description
                   status := tu.status }), db.sessions⟩) := by
  refine ⟨?_, ?_, ?_⟩
  · intro h
    simp [update_task, find?_id_eq_none h]
  · rintro ⟨t, ht, hid⟩ ⟨o, ho, hot, hoid⟩
    obtain ⟨ex, hex, _⟩ := find?_some_of_exists (p := fun s => s.id == tid)
      ⟨t, ht, by simpa using hid⟩
    obtain ⟨c, hc, _⟩ := find?_some_of_exists
      (p := fun s => s.title == tu.title && !(s.id == tid))
      ⟨o, ho, by simp [hot, hoid]⟩
    simp [update_task, hex, hc]
  · rintro ⟨t, ht, hid⟩ hall
    obtain ⟨ex, hex, hexp⟩ := find?_some_of_exists (p := fun s => s.id == tid)
      ⟨t, ht, by simpa using hid⟩
    have hg : db.tasks.find?
        (fun s => s.title == tu.title && !(s.id == tid)) = none := by
      apply List.find?_eq_none.mpr
      intro s hs
      by_cases hst : s.title = tu.title
      · simp [hall s hs hst]
      · simp [hst]
    refine ⟨{ ex with
        title := tu.title
        description := tu.description
        status := tu.status }, ?_, ?_, rfl, rfl, rfl, ?_⟩
    · simp [update_task, hex, hg]
    · show ex.id = tid
      simpa using hexp
    · simp [update_task, hex, hg]

/-- C3 witness: NotFound on an absent id; Conflict on an exact duplicate
title held by a different task. -/
theorem update_task_exact_title_witness :
    update_task "zz" { title := "abc" } ⟨[], []⟩ =
      (Result.err ApiError.NotFound, ⟨[], []⟩) ∧
    update_task "id2" { title := "abc" }
        ⟨[⟨"id1", "abc", none, TaskStatus.TO_DO, false⟩,
          ⟨"id2", "xyz", none, TaskStatus.TO_DO, false⟩], []⟩ =
      (Result.err ApiError.Conflict,
       ⟨[⟨"id1", "abc", none, TaskStatus.TO_DO, false⟩,
         ⟨"id2", "xyz", none, TaskStatus.TO_DO, false⟩], []⟩) :=
  ⟨(update_task_exact_title "zz" { title := "abc" } ⟨[], []⟩).1 (by decide),
   (update_task_exact_title "id2" { title := "abc" }
      ⟨[⟨"id1", "abc", none, TaskStatus.TO_DO, false⟩,
        ⟨"id2", "xyz", none, TaskStatus.TO_DO, false⟩], []⟩).2.1
     (by decide) (by decide)⟩

/-- C6: after a successful create with a fresh identifier, `get` on the
returned id (with no intervening operation) succeeds and returns the same
title, description and status that were supplied (the status defaults to
`TO_DO` in `TaskCreate` when omitted). -/
theorem get_after_create (tc : TaskCreate) (newId : String) (db : DBState)
    (hfresh : ∀ t ∈ db.tasks, t.id ≠ newId) (created : TaskDB)
    (db' : DBState) (h : create_task tc newId db = (Result.ok created, db')) :
    (get_task created.id db').1 = Result.ok created ∧
    created.title = tc.title ∧ created.description = tc.description ∧
    created.status = tc.status := by
  cases hf : db.tasks.find? (fun t => t.title == tc.title) with
  | some t => simp [create_task, hf] at h
  | none =>
    simp only [create_task, hf] at h
    injection h with h1 h2
    injection h1 with h1
    subst h1
    subst h2
    have hpref : db.tasks.find? (fun t => t.id == newId) = none :=
      find?_id_eq_none hfresh
    refine ⟨?_, rfl, rfl, rfl⟩
    simp [get_task, List.find?_append, hpref]

/-- C6 witness: create on the empty store, then get. -/
theorem get_after_create_witness :
    (get_task "a1"
        ⟨[⟨"a1", "todo item", none, TaskStatus.TO_DO, false⟩], []⟩).1 =
      Result.ok ⟨"a1", "todo item", none, TaskStatus.TO_DO, false⟩ ∧
    "todo item" = "todo item" ∧ (none : Option String) = none ∧
    TaskStatus.TO_DO = TaskStatus.TO_DO :=
  get_after_create { title := "todo item" } "a1" ⟨[], []⟩ (by decide) _ _ rfl

/-- C7: delete fails with NotFound when the id is absent; otherwise it
removes the record (no task with that id remains, all other tasks and all
sessions survive) and a subsequent `get` on that id yields NotFound.  The
primary-key invariant (pairwise distinct ids) is assumed. -/
theorem delete_then_get (tid : String) (db : DBState)
    (hnd : (taskIds db.tasks).Nodup) :
    ((∀ t ∈ db.tasks, t.id ≠ tid) →
        delete_task tid db = (Result.err ApiError.NotFound, db)) ∧
    ((∃ t ∈ db.tasks, t.id = tid) →
        ∃ msg db', delete_task tid db = (Result.ok msg, db') ∧
          db'.sessions = db.sessions ∧
          (∀ t ∈ db'.tasks, t.id ≠ tid) ∧
          (∀ t ∈ db.tasks, t.id ≠ tid → t ∈ db'.tasks) ∧
          (get_task tid db').1 = Result.err ApiError.NotFound) := by
  constructor
  · intro h
    simp [delete_task, find?_id_eq_none h]
  · rintro ⟨t, ht, hid⟩
    obtain ⟨u, hu, _⟩ := find?_some_of_exists (p := fun s => s.id == tid)
      ⟨t, ht, by simpa using hid⟩
    have herase : (db.tasks.eraseP (fun s => s.id == tid)).find?
        (fun s => s.id == tid) = none := find?_id_eraseP hnd
    refine ⟨"Task with ID " ++ tid ++ " has been deleted",
      ⟨db.tasks.eraseP (fun s => s.id == tid), db.sessions⟩,
      by simp [delete_task, hu], rfl, ?_, ?_, ?_⟩
    · intro s hs
      have := List.find?_eq_none.mp herase s hs
      simpa using this
    · intro s hs hne
      exact mem_eraseP_of_ne hs hne
    · simp [get_task, herase]

/-- C7 witness: deleting an absent id on a one-task store yields NotFound
and leaves the store unchanged. -/
theorem delete_then_get_witness :
    delete_task "zz"
        ⟨[⟨"a1", "todo item", none, TaskStatus.TO_DO, false⟩], []⟩ =
      (Result.err ApiError.NotFound,
       ⟨[⟨"a1", "todo item", none, TaskStatus.TO_DO, false⟩], []⟩) :=
  (delete_then_get "zz"
      ⟨[⟨"a1", "todo item", none, TaskStatus.TO_DO, false⟩], []⟩
      (by decide)).1 (by decide)

/-- C4: start fails with NotFound when the task is absent, with Conflict
when `pomodoro_active` is already true, and otherwise sets it true; stop
fails with NotFound when absent, with Conflict when the flag is already
false, and otherwise sets it false.  Hence start-start yields Conflict, and
stop after a successful start succeeds and resets the flag so a subsequent
start succeeds again.  The primary-key invariant (pairwise distinct ids) is
assumed. -/
theorem pomodoro_start_stop (tid : String) (db : DBState)
    (hnd : (taskIds db.tasks).Nodup) :
    ((∀ t ∈ db.tasks, t.id ≠ tid) →
        create_pomodoro_timer tid db = (Result.err ApiError.NotFound, db) ∧
        stop_pomodoro_timer tid db = (Result.err ApiError.NotFound, db)) ∧
    (∀ t ∈ db.tasks, t.id = tid →
      (t.pomodoro_active = true →
          create_pomodoro_timer tid db = (Result.err ApiError.Conflict, db) ∧
          ∃ m db', stop_pomodoro_timer tid db = (Result.ok m, db') ∧
            ∃ u ∈ db'.tasks, u.id = tid ∧ u.pomodoro_active = false) ∧
      (t.pomodoro_active = false →
          stop_pomodoro_timer tid db = (Result.err ApiError.Conflict, db) ∧
          ∃ m₁ db₁, create_pomodoro_timer tid db = (Result.ok m₁, db₁) ∧
            (∃ u ∈ db₁.tasks, u.id = tid ∧ u.pomodoro_active = true) ∧
            (create_pomodoro_timer tid db₁).1 = Result.err ApiError.Conflict ∧
            ∃ m₂ db₂, stop_pomodoro_timer tid db₁ = (Result.ok m₂, db₂) ∧
              (∃ u ∈ db₂.tasks, u.id = tid ∧ u.pomodoro_active = false) ∧
              ∃ m₃ db₃,
                create_pomodoro_timer tid db₂ = (Result.ok m₃, db₃) ∧
                ∃ u ∈ db₃.tasks, u.id = tid ∧ u.pomodoro_active = true)) := by
  constructor
  · intro h
    constructor
    · simp [create_pomodoro_timer, find?_id_eq_none h]
    · simp [stop_pomodoro_timer, find?_id_eq_none h]
  · intro t ht hid
    subst hid
    have hf0 : db.tasks.find? (fun s => s.id == t.id) = some t :=
      find?_id_nodup hnd ht rfl
    constructor
    · intro hact
      refine ⟨by simp [create_pomodoro_timer, hf0, hact], ?_⟩
      refine ⟨"Pomodoro timer for task with ID " ++ t.id ++ " has been stopped",
        ⟨updateFirstById db.tasks t.id
          (fun s => { s with pomodoro_active := false }), db.sessions⟩,
        by simp [stop_pomodoro_timer, hf0, hact], ?_⟩
      have hf1 : (updateFirstById db.tasks t.id
          (fun s => { s with pomodoro_active := false })).find?
            (fun s => s.id == t.id) =
          some { t with pomodoro_active := false } :=
        find?_id_updateFirstById hnd ht rfl (fun s => rfl)
      exact ⟨{ t with pomodoro_active := false },
        List.mem_of_find?_eq_some hf1, rfl, rfl⟩
    · intro hact
      refine ⟨by simp [stop_pomodoro_timer, hf0, hact], ?_⟩
      have hnd1 : (taskIds (updateFirstById db.tasks t.id
          (fun s => { s with pomodoro_active := true }))).Nodup := by
        rw [updateFirstById_taskIds
          (f := fun s => { s with pomodoro_active := true }) (fun s => rfl)]
        exact hnd
      have hf1 : (updateFirstById db.tasks t.id
          (fun s => { s with pomodoro_active := true })).find?
            (fun s => s.id == t.id) =
          some { t with pomodoro_active := true } :=
        find?_id_updateFirstById hnd ht rfl (fun s => rfl)
      refine ⟨"25-minute Pomodoro timer created for task with ID " ++ t.id,
        ⟨updateFirstById db.tasks t.id
          (fun s => { s with pomodoro_active := true }), db.sessions⟩,
        by simp [create_pomodoro_timer, hf0, hact], ?_, ?_, ?_⟩
      · exact ⟨{ t with pomodoro_active := true },
          List.mem_of_find?_eq_some hf1, rfl, rfl⟩
      · simp [create_pomodoro_timer, hf1]
      · have hnd2 : (taskIds (updateFirstById (updateFirstById db.tasks t.id
            (fun s => { s with pomodoro_active := true })) t.id
            (fun s => { s with pomodoro_active := false }))).Nodup := by
          rw [updateFirstById_taskIds
            (f := fun s => { s with pomodoro_active := false }) (fun s => rfl),
            updateFirstById_taskIds
            (f := fun s => { s with pomodoro_active := true }) (fun s => rfl)]
          exact hnd
        have hf2 : (updateFirstById (updateFirstById db.tasks t.id
            (fun s => { s with pomodoro_active := true })) t.id
            (fun s => { s with pomodoro_active := false })).find?
              (fun s => s.id == t.id) =
            some { t with pomodoro_active := false } :=
          find?_id_updateFirstById (t := { t with pomodoro_active := true })
            hnd1 (List.mem_of_find?_eq_some hf1) rfl (fun s => rfl)
        refine ⟨"Pomodoro timer for task with ID " ++ t.id
            ++ " has been stopped",
          ⟨updateFirstById (updateFirstById db.tasks t.id
            (fun s => { s with pomodoro_active := true })) t.id
            (fun s => { s with pomodoro_active := false }), db.sessions⟩,
          by simp [stop_pomodoro_timer, hf1], ?_, ?_⟩
        · exact ⟨{ t with pomodoro_active := false },
            List.mem_of_find?_eq_some hf2, rfl, rfl⟩
        · have hf3 : (updateFirstById (updateFirstById (updateFirstById
              db.tasks t.id (fun s => { s with pomodoro_active := true }))
              t.id (fun s => { s with pomodoro_active := false })) t.id
              (fun s => { s with pomodoro_active := true })).find?
                (fun s => s.id == t.id) =
              some { t with pomodoro_active := true } :=
            find?_id_updateFirstById (t := { t with pomodoro_active := false })
              hnd2 (List.mem_of_find?_eq_some hf2) rfl (fun s => rfl)
          refine ⟨"25-minute Pomodoro timer created for task with ID "
              ++ t.id,
            ⟨updateFirstById (updateFirstById (updateFirstById
              db.tasks t.id (fun s => { s with pomodoro_active := true }))
              t.id (fun s => { s with pomodoro_active := false })) t.id
              (fun s => { s with pomodoro_active := true }), db.sessions⟩,
            by simp [create_pomodoro_timer, hf2], ?_⟩
          exact ⟨{ t with pomodoro_active := true },
            List.mem_of_find?_eq_some hf3, rfl, rfl⟩

/-- C4 witness: NotFound on the empty store, and Conflict on a second start
for a task whose timer is already active. -/
theorem pomodoro_start_stop_witness :
    (create_pomodoro_timer "a1" ⟨[], []⟩ =
        (Result.err ApiError.NotFound, ⟨[], []⟩) ∧
     stop_pomodoro_timer "a1" ⟨[], []⟩ =
        (Result.err ApiError.NotFound, ⟨[], []⟩)) ∧
    (create_pomodoro_timer "a1"
        ⟨[⟨"a1", "todo item", none, TaskStatus.TO_DO, true⟩], []⟩ =
      (Result.err ApiError.Conflict,
       ⟨[⟨"a1", "todo item", none, TaskStatus.TO_DO, true⟩], []⟩)) :=
  ⟨(pomodoro_start_stop "a1" ⟨[], []⟩ (by decide)).1 (by decide),
   (((pomodoro_start_stop "a1"
        ⟨[⟨"a1", "todo item", none, TaskStatus.TO_DO, true⟩], []⟩
        (by decide)).2
      ⟨"a1", "todo item", none, TaskStatus.TO_DO, true⟩
      (by decide) rfl).1 rfl).1⟩

/-- C9: `pomodoro_active` defaults to false at creation (create never sets
it true); update leaves every task's `pomodoro_active` (and id) unchanged;
start and stop leave every task's id, title, description and status (and
the session table) unchanged. -/
theorem pomodoro_active_frame :
    (∀ tc newId db created db',
        create_task tc newId db = (Result.ok created, db') →
        created.pomodoro_active = false ∧ created ∈ db'.tasks) ∧
    (∀ tid tu db,
        ((update_task tid tu db).2).tasks.map
            (fun t => (t.id, t.pomodoro_active)) =
          db.tasks.map (fun t => (t.id, t.pomodoro_active))) ∧
    (∀ tid db,
        ((create_pomodoro_timer tid db).2).tasks.map
            (fun t => (t.id, t.title, t.description, t.status)) =
          db.tasks.map (fun t => (t.id, t.title, t.description, t.status)) ∧
        ((create_pomodoro_timer tid db).2).sessions = db.sessions) ∧
    (∀ tid db,
        ((stop_pomodoro_timer tid db).2).tasks.map
            (fun t => (t.id, t.title, t.description, t.status)) =
          db.tasks.map (fun t => (t.id, t.title, t.description, t.status)) ∧
        ((stop_pomodoro_timer tid db).2).sessions = db.sessions) := by
  refine ⟨?_, ?_, ?_, ?_⟩
  · intro tc newId db created db' h
    cases hf : db.tasks.find? (fun t => t.title == tc.title) with
    | some t => simp [create_task, hf] at h
    | none =>
      simp only [create_task, hf] at h
      injection h with h1 h2
      injection h1 with h1
      subst h1
      subst h2
      exact ⟨rfl, List.mem_append_right _ (List.mem_singleton.mpr rfl)⟩
  · intro tid tu db
    cases hf : db.tasks.find? (fun t => t.id == tid) with
    | none => simp [update_task, hf]
    | some ex =>
      cases hg : db.tasks.find?
          (fun t => t.title == tu.title && !(t.id == tid)) with
      | some o => simp [update_task, hf, hg]
      | none =>
        simp only [update_task, hf, hg]
        exact updateFirstById_map _ (fun t => rfl)
  · intro tid db
    cases hf : db.tasks.find? (fun t => t.id == tid) with
    | none => simp [create_pomodoro_timer, hf]
    | some t =>
      by_cases ha : t.pomodoro_active
      · simp [create_pomodoro_timer, hf, ha]
      · simp only [create_pomodoro_timer, hf, ha, Bool.false_eq_true,
          if_false, ite_false]
        exact ⟨updateFirstById_map _ (fun t => rfl), trivial⟩
  · intro tid db
    cases hf : db.tasks.find? (fun t => t.id == tid) with
    | none => simp [stop_pomodoro_timer, hf]
    | some t =>
      by_cases ha : t.pomodoro_active
      · simp only [stop_pomodoro_timer, hf, ha, if_true, ite_true]
        exact ⟨updateFirstById_map _ (fun t => rfl), trivial⟩
      · simp [stop_pomodoro_timer, hf, ha]

/-- C9 witness: a concrete successful create yields a task whose
`pomodoro_active` is false. -/
theorem pomodoro_active_frame_witness :
    (⟨"a1", "todo item", none, TaskStatus.TO_DO, false⟩
        : TaskDB).pomodoro_active = false ∧
    (⟨"a1", "todo item", none, TaskStatus.TO_DO, false⟩ : TaskDB) ∈
      (⟨[⟨"a1", "todo item", none, TaskStatus.TO_DO, false⟩], []⟩
        : DBState).tasks :=
  pomodoro_active_frame.1 { title := "todo item" } "a1" ⟨[], []⟩ _ _ rfl

/-- A raw create/update body that violates the Pydantic field constraints:
title length outside 3..100, description longer than 300, or a status
string outside the three enumerated values. -/
def invalidRaw (raw : RawTaskCreate) : Prop :=
  raw.title.length < 3 ∨ 100 < raw.title.length ∨
  (∃ d, raw.description = some d ∧ 300 < d.length) ∨
  (∃ s, raw.status = some s ∧ s ≠ "do wykonania" ∧ s ≠ "w trakcie" ∧
    s ≠ "zakończone")

/-- C8: a create or update request whose title is shorter than 3 or longer
than 100 characters, whose description exceeds 300 characters, or whose
status is outside the three enumerated values, is rejected as a validation
failure before any business logic runs (no uniqueness check, state
unchanged, for every store state); a request that passes validation is
within those bounds, and an omitted status defaults to `TO_DO`. -/
theorem validation_before_business_logic (raw : RawTaskCreate) :
    (invalidRaw raw →
      validateTaskCreate raw = none ∧
      (∀ newId db, post_tasks raw newId db =
          (Result.err ApiError.Validation, db)) ∧
      (∀ tid db, put_tasks tid raw db =
          (Result.err ApiError.Validation, db))) ∧
    (∀ tc, validateTaskCreate raw = some tc →
      3 ≤ raw.title.length ∧ raw.title.length ≤ 100 ∧
      (∀ d, raw.description = some d → d.length ≤ 300) ∧
      (raw.status = none → tc.status = TaskStatus.TO_DO)) := by
  constructor
  · intro hinv
    have hv : validateTaskCreate raw = none := by
      rcases hinv with h | h | ⟨d, hd, hdl⟩ | ⟨s, hs, h1, h2, h3⟩
      · have hcond : ¬(3 ≤ raw.title.length ∧ raw.title.length ≤ 100) := by
          omega
        simp [validateTaskCreate, hcond]
      · have hcond : ¬(3 ≤ raw.title.length ∧ raw.title.length ≤ 100) := by
          omega
        simp [validateTaskCreate, hcond]
      · have hdl' : ¬(d.length ≤ 300) := by omega
        unfold validateTaskCreate
        split
        · simp [hd, hdl']
        · rfl
      · unfold validateTaskCreate
        split
        · split
          · simp [hs, parseStatus, h1, h2, h3]
          · rfl
        · rfl
    exact ⟨hv, fun newId db => by simp [post_tasks, hv],
      fun tid db => by simp [put_tasks, hv]⟩
  · intro tc htc
    unfold validateTaskCreate at htc
    by_cases hcond : 3 ≤ raw.title.length ∧ raw.title.length ≤ 100
    · rw [if_pos hcond] at htc
      refine ⟨hcond.1, hcond.2, ?_, ?_⟩
      · intro d hd
        by_contra hdl
        rw [hd] at htc
        simp [hdl] at htc
      · intro hstat
        rw [hstat] at htc
        split at htc
        · simp only [parseStatus] at htc
          injection htc with h
          rw [← h]
        · exact absurd htc (by simp)
    · rw [if_neg hcond] at htc
      exact absurd htc (by simp)

/-- C8 witness: the short title "ab" is rejected with a validation failure
and the store is untouched; a valid body with omitted status validates to
status `TO_DO`. -/
theorem validation_before_business_logic_witness :
    post_tasks ⟨"ab", none, none⟩ "id1" ⟨[], []⟩ =
      (Result.err ApiError.Validation, ⟨[], []⟩) ∧
    (⟨"abc", none, TaskStatus.TO_DO⟩ : TaskCreate).status =
      TaskStatus.TO_DO :=
  ⟨((validation_before_business_logic ⟨"ab", none, none⟩).1
      (Or.inl (by decide))).2.1 "id1" ⟨[], []⟩,
   ((validation_before_business_logic ⟨"abc", none, none⟩).2
      ⟨"abc", none, TaskStatus.TO_DO⟩ (by decide)).2.2.2 rfl⟩

/-- One update of a per-task accumulator entry: an unseen task id starts at
`{completed_sessions := 0, total_time := 0}` and is then incremented. -/
def bump : Option TaskStat → ℚ → TaskStat
  | none, q => ⟨1, q⟩
  | some v, q => ⟨v.completed_sessions + 1, v.total_time + q⟩

theorem lookup_cons_ne {β : Type} (tid k : String) (v : β)
    (l : List (String × β)) (h : tid ≠ k) :
    List.lookup tid ((k, v) :: l) = List.lookup tid l := by
  have hb : (tid == k) = false := beq_eq_false_iff_ne.mpr h
  simp [List.lookup, hb]

theorem lookup_addSession_self (stats : List (String × TaskStat))
    (tid : String) (q : ℚ) :
    (addSession stats tid q).lookup tid =
      some (bump (stats.lookup tid) q) := by
  induction stats with
  | nil =>
    show List.lookup tid [(tid, (⟨1, q⟩ : TaskStat))] = some (bump none q)
    rw [List.lookup_cons_self]
    rfl
  | cons p rest ih =>
    obtain ⟨k, v⟩ := p
    by_cases hk : k = tid
    · subst hk
      simp only [addSession, beq_self_eq_true, if_true, ite_true]
      rw [List.lookup_cons_self, List.lookup_cons_self]
      rfl
    · have h1 : (k == tid) = false := beq_eq_false_iff_ne.mpr hk
      simp only [addSession, h1, Bool.false_eq_true, if_false, ite_false]
      rw [lookup_cons_ne tid k _ _ (fun he => hk he.symm),
        lookup_cons_ne tid k v _ (fun he => hk he.symm), ih]

theorem lookup_addSession_ne (stats : List (String × TaskStat))
    (tid tid' : String) (q : ℚ) (h : tid' ≠ tid) :
    (addSession stats tid q).lookup tid' = stats.lookup tid' := by
  induction stats with
  | nil =>
    show List.lookup tid' [(tid, (⟨1, q⟩ : TaskStat))] = List.lookup tid' []
    rw [lookup_cons_ne tid' tid _ _ h]
  | cons p rest ih =>
    obtain ⟨k, v⟩ := p
    by_cases hk : k = tid
    · subst hk
      simp only [addSession, beq_self_eq_true, if_true, ite_true]
      rw [lookup_cons_ne tid' k _ _ h, lookup_cons_ne tid' k v _ h]
    · have h1 : (k == tid) = false := beq_eq_false_iff_ne.mpr hk
      simp only [addSession, h1, Bool.false_eq_true, if_false, ite_false]
      by_cases hk' : k = tid'
      · subst hk'
        rw [List.lookup_cons_self, List.lookup_cons_self]
      · rw [lookup_cons_ne tid' k _ _ (fun he => hk' he.symm),
          lookup_cons_ne tid' k v _ (fun he => hk' he.symm), ih]

theorem statsLoop_total (cs : List PomodoroSessionDB)
    (st : List (String × TaskStat)) (tot : ℚ) :
    (cs.foldl statsStep (st, tot)).2 = tot + (cs.map sessMinutes).sum := by
  induction cs generalizing st tot with
  | nil => simp
  | cons c cs ih =>
    simp only [List.foldl_cons, statsStep, List.map_cons, List.sum_cons]
    rw [ih]
    ring

theorem statsLoop_lookup (cs : List PomodoroSessionDB)
    (st : List (String × TaskStat)) (tot : ℚ) (tid : String) :
    ((cs.foldl statsStep (st, tot)).1).lookup tid =
      (cs.filter (fun s => s.task_id == tid)).foldl
        (fun o s => some (bump o (sessMinutes s))) (st.lookup tid) := by
  induction cs generalizing st tot with
  | nil => rfl
  | cons c cs ih =>
    simp only [List.foldl_cons, statsStep]
    by_cases hc : c.task_id = tid
    · rw [ih, hc, lookup_addSession_self,
        List.filter_cons_of_pos (by simpa using hc), List.foldl_cons]
    · rw [ih, lookup_addSession_ne _ _ _ _ (fun he => hc he.symm),
        List.filter_cons_of_neg (by simpa using hc)]

theorem bumpFoldl_some (ss : List PomodoroSessionDB) (c : Nat) (t : ℚ) :
    ss.foldl (fun o s => some (bump o (sessMinutes s))) (some ⟨c, t⟩) =
      some ⟨c + ss.length, t + (ss.map sessMinutes).sum⟩ := by
  induction ss generalizing c t with
  | nil => simp
  | cons s ss ih =>
    rw [List.foldl_cons]
    have hb : bump (some ⟨c, t⟩) (sessMinutes s) =
        ⟨c + 1, t + sessMinutes s⟩ := rfl
    rw [hb, ih]
    simp only [Option.some.injEq, TaskStat.mk.injEq, List.length_cons,
      List.map_cons, List.sum_cons]
    constructor
    · omega
    · ring

theorem bumpFoldl_none (ss : List PomodoroSessionDB) :
    ss.foldl (fun o s => some (bump o (sessMinutes s))) none =
      (if ss.isEmpty then none
       else some ⟨ss.length, (ss.map sessMinutes).sum⟩) := by
  cases ss with
  | nil => rfl
  | cons s ss =>
    rw [List.foldl_cons]
    have hb : bump none (sessMinutes s) = ⟨1, sessMinutes s⟩ := rfl
    rw [hb, bumpFoldl_some]
    simp only [List.isEmpty_cons, Bool.false_eq_true, if_false, ite_false,
      Option.some.injEq, TaskStat.mk.injEq, List.length_cons,
      List.map_cons, List.sum_cons]
    refine ⟨by omega, ?_⟩
    trivial

/-- The session fixture of the claim: two completed sessions for task A
(12:00 to 12:25 and 13:00 to 13:10, as seconds of day) and one
non-completed session for task B. -/
def statsExampleDB : DBState :=
  ⟨[], [⟨"s1", "A", 43200, 44700, true⟩, ⟨"s2", "A", 46800, 47400, true⟩,
        ⟨"s3", "B", 0, 0, false⟩]⟩

/-- C2 counterexample: the stats response object's keys are "task_stats"
and "total_time", not "per_task" and "total_minutes" as the claim states
(the per-task entries likewise use "total_time", not "total_minutes"). -/
theorem c2_counterexample :
    JValue.topKeys (statsToJson statsExampleDB) =
      ["task_stats", "total_time"] ∧
    ¬ ("per_task" ∈ JValue.topKeys (statsToJson statsExampleDB)) ∧
    ¬ ("total_minutes" ∈ JValue.topKeys (statsToJson statsExampleDB)) := by
  refine ⟨rfl, ?_, ?_⟩ <;> decide

/-- C2 (amended): stats() returns an object keyed "task_stats" and
"total_time" (not "per_task"/"total_minutes"); it iterates exactly the
sessions with completed = true, takes each session's elapsed time
(end_time - start_time) in exact fractional minutes, and accumulates a
per-task session count and minute sum plus a grand total; non-completed
sessions contribute nothing and a task with no completed session is absent.
On the fixture [A completed 12:00 to 12:25, A completed 13:00 to 13:10,
B not completed] it yields A : 2 sessions and 35 minutes, grand total 35,
and no entry for B. -/
theorem get_pomodoro_stats_spec (db : DBState) :
    JValue.topKeys (statsToJson db) = ["task_stats", "total_time"] ∧
    (get_pomodoro_stats db).2 =
      ((db.sessions.filter (fun s => s.completed)).map sessMinutes).sum ∧
    (∀ tid : String,
      ((get_pomodoro_stats db).1).lookup tid =
        (if ((db.sessions.filter (fun s => s.completed)).filter
              (fun s => s.task_id == tid)).isEmpty
         then none
         else some
           ⟨((db.sessions.filter (fun s => s.completed)).filter
               (fun s => s.task_id == tid)).length,
            (((db.sessions.filter (fun s => s.completed)).filter
               (fun s => s.task_id == tid)).map sessMinutes).sum⟩)) ∧
    ((get_pomodoro_stats statsExampleDB).1).lookup "A" = some ⟨2, 35⟩ ∧
    ((get_pomodoro_stats statsExampleDB).1).lookup "B" = none ∧
    (get_pomodoro_stats statsExampleDB).2 = 35 := by
  refine ⟨rfl, ?_, ?_, ?_, ?_, ?_⟩
  · simpa [get_pomodoro_stats] using
      statsLoop_total (db.sessions.filter (fun s => s.completed)) [] 0
  · intro tid
    have h := statsLoop_lookup (db.sessions.filter (fun s => s.completed))
      [] 0 tid
    simp only [get_pomodoro_stats]
    rw [h]
    exact bumpFoldl_none _
  · norm_num [get_pomodoro_stats, statsExampleDB, statsStep, sessMinutes,
      addSession, List.foldl, List.filter, List.lookup]
  · norm_num [get_pomodoro_stats, statsExampleDB, statsStep, sessMinutes,
      addSession, List.foldl, List.filter, List.lookup]
    decide
  · norm_num [get_pomodoro_stats, statsExampleDB, statsStep, sessMinutes,
      addSession, List.foldl, List.filter]
